import Mathlib

/-!
Verification of the COVID-19 dashboard (`src/COVID-19/app.py`) against its
natural-language specification.

The dashboard's analytical core is embedded shallowly:

* a cumulative time series is a `List ℚ` of values (paired with date keys
  where dates matter);
* `dailyDelta` embeds `df_ts['value'].diff().fillna(0)` (app.py line 180);
* `movingAverage` embeds
  `df_ts['new'].rolling(window=ma_window, min_periods=1).mean()` (line 181):
  pandas' rolling mean with `min_periods=1` is the mean of the trailing
  window of up to `w` last values, shrinking at the start;
* the global aggregation (lines 141-158), date parsing (lines 157, 170),
  decomposition orchestration (lines 202-216), CSV export (lines 221-222)
  and KPI block (lines 60-77) are embedded further below.
-/

namespace Covid

/-- Daily delta of a cumulative series: `series.diff().fillna(0)`.
`diff` puts `NaN` at index 0 (there is no previous row) and
`value[i] - value[i-1]` elsewhere; `fillna(0)` turns the leading `NaN`
into `0`. -/
def dailyDelta : List ℚ → List ℚ
  | [] => []
  | x :: xs => 0 :: List.zipWith (fun b a => b - a) xs (x :: xs)

/-- Trailing moving average with shrinking initial window:
`rolling(window=w, min_periods=1).mean()`.  At index `i` the window is the
last `min w (i+1)` values, i.e. indices `i+1-w .. i` (`ℕ` subtraction
clamps at 0), and the entry is that window's arithmetic mean. -/
def movingAverage (w : ℕ) (d : List ℚ) : List ℚ :=
  (List.range d.length).map fun i =>
    let win := (d.take (i + 1)).drop (i + 1 - w)
    win.sum / win.length

/-- Arithmetic mean of a list, as the spec words it (`sum / count`). -/
def listMean (l : List ℚ) : ℚ := l.sum / l.length

/-- The trailing window `d[max(0, i-w+1) .. i]` named by the spec: drop the
first `max(0, i-w+1) = i+1-w` elements (`ℕ` subtraction), keep the next
`i - (i+1-w) + 1` ones. -/
def windowSlice (d : List ℚ) (w i : ℕ) : List ℚ :=
  (d.drop (i + 1 - w)).take (i + 1 - (i + 1 - w))

theorem dailyDelta_length (S : List ℚ) : (dailyDelta S).length = S.length := by
  cases S with
  | nil => rfl
  | cons x xs => simp [dailyDelta]

/-- C1: for every cumulative series `S` with `S.length ≥ 1`, the derived
daily-delta sequence has the same length, starts with `0`, and satisfies
`daily_delta[i] = S[i] - S[i-1]` for every `0 < i < S.length`. -/
theorem daily_delta_first_difference (S : List ℚ) (hn : 1 ≤ S.length) :
    (dailyDelta S).length = S.length ∧ (dailyDelta S).getD 0 0 = 0 ∧
    ∀ i : ℕ, 0 < i → i < S.length →
      (dailyDelta S).getD i 0 = S.getD i 0 - S.getD (i - 1) 0 := by
  cases S with
  | nil => simp at hn
  | cons x xs =>
    refine ⟨dailyDelta_length _, rfl, ?_⟩
    intro i hi hilt
    obtain ⟨j, rfl⟩ : ∃ j, i = j + 1 := ⟨i - 1, by omega⟩
    have hj : j < xs.length := by simpa using hilt
    have hzip : j < (List.zipWith (fun b a : ℚ => b - a) xs (x :: xs)).length := by
      simp; omega
    have hj1 : j + 1 - 1 = j := by omega
    simp only [dailyDelta, List.getD_cons_succ, hj1]
    rw [List.getD_eq_getElem _ _ hzip, List.getElem_zipWith]
    rw [List.getD_eq_getElem xs 0 hj,
      List.getD_eq_getElem (x :: xs) 0 (show j < (x :: xs).length by simp; omega)]

/-- C1 witness: instantiation at `S = [3, 10, 6]`, `i = 2`. -/
theorem daily_delta_first_difference_witness :
    1 ≤ ([(3 : ℚ), 10, 6]).length ∧
    (dailyDelta [(3 : ℚ), 10, 6]).getD 2 0 =
      ([(3 : ℚ), 10, 6]).getD 2 0 - ([(3 : ℚ), 10, 6]).getD 1 0 :=
  ⟨by norm_num,
   (daily_delta_first_difference [3, 10, 6] (by norm_num)).2.2 2 (by norm_num) (by norm_num)⟩

theorem movingAverage_length (w : ℕ) (d : List ℚ) :
    (movingAverage w d).length = d.length := by
  simp [movingAverage]

theorem movingAverage_one (d : List ℚ) : movingAverage 1 d = d := by
  refine List.ext_getElem (movingAverage_length 1 d) ?_
  intro i hi hid
  have hi' : i < d.length := hid
  simp only [movingAverage, List.getElem_map, List.getElem_range]
  rw [List.drop_take, Nat.add_sub_cancel, Nat.add_sub_cancel_left,
    List.drop_eq_getElem_cons hi']
  simp only [List.take_succ_cons, List.take_zero, List.sum_cons, List.sum_nil, add_zero,
    List.length_singleton, Nat.cast_one, div_one]

/-- C2: for every delta sequence `d` and window `w ∈ [1, 30]`, the moving
average has the same length as `d`, its entry at each `i < d.length` is the
arithmetic mean of `d[max(0, i-w+1) .. i]` (a trailing window that shrinks
at the start, so every entry is defined), and for `w = 1` the moving
average equals `d` pointwise. -/
theorem moving_average_trailing_mean (w : ℕ) (d : List ℚ) (_hw1 : 1 ≤ w) (_hw2 : w ≤ 30) :
    (movingAverage w d).length = d.length ∧
    (∀ i : ℕ, i < d.length →
      (movingAverage w d).getD i 0 = listMean (windowSlice d w i)) ∧
    movingAverage 1 d = d := by
  refine ⟨movingAverage_length w d, ?_, movingAverage_one d⟩
  intro i hi
  have hlen : i < (movingAverage w d).length := by
    rw [movingAverage_length]; exact hi
  rw [List.getD_eq_getElem _ _ hlen]
  simp only [movingAverage, List.getElem_map, List.getElem_range]
  rw [List.drop_take]
  rfl

/-- C2 witness: instantiation at `w = 2`, `d = [0, 2, 4]`, `i = 2`. -/
theorem moving_average_trailing_mean_witness :
    1 ≤ 2 ∧ 2 ≤ 30 ∧ (2 : ℕ) < ([(0 : ℚ), 2, 4]).length ∧
    (movingAverage 2 [(0 : ℚ), 2, 4]).getD 2 0 = listMean (windowSlice [(0 : ℚ), 2, 4] 2 2) :=
  ⟨by norm_num, by norm_num, by norm_num,
   (moving_average_trailing_mean 2 [0, 2, 4] (by norm_num) (by norm_num)).2.1 2 (by norm_num)⟩

/-- One country's entry in the global historical JSON (lines 141-150): a
country name and its `timeline`, mapping each metric name to a
date-string → cumulative-count map.  An empty `timeline` list models a
missing or empty timeline object. -/
structure CountryHist where
  country : String
  timeline : List (String × List (String × ℚ))

/-- `timeline.get(metric_option, {})`: the requested metric's sub-mapping,
or the empty mapping when the metric is absent. -/
def metricSeriesOf (c : CountryHist) (metric : String) : List (String × ℚ) :=
  match c.timeline.find? (fun p => p.1 == metric) with
  | some p => p.2
  | none => []

/-- The date keys of one metric series. -/
def tlKeys (t : List (String × ℚ)) : List String := t.map Prod.fst

/-- Remove duplicates keeping the first occurrence of each key, `seen`
accumulating the keys already emitted. -/
def dedupFirstAux (seen : List String) : List String → List String
  | [] => []
  | k :: rest =>
    if k ∈ seen then dedupFirstAux seen rest
    else k :: dedupFirstAux (k :: seen) rest

/-- Remove duplicate keys, keeping each key's first occurrence. -/
def dedupFirst (l : List String) : List String := dedupFirstAux [] l

/-- The union of the date keys of several metric series, first occurrence
first — the index union built by `pd.concat(..., axis=1)`. -/
def unionKeys (ts : List (List (String × ℚ))) : List String :=
  dedupFirst ((ts.map tlKeys).flatten)

/-- Value of a series at a date key, `0` when the date is absent — the
`.fillna(0)` zero-fill applied after alignment. -/
def lookup0 (t : List (String × ℚ)) (k : String) : ℚ :=
  match t.find? (fun p => p.1 == k) with
  | some p => p.2
  | none => 0

/-- Lines 146-156: keep the series that are nonempty (`if metric_series:`),
align the kept series on the union of their date keys
(`pd.concat(df_hist_list, axis=1)`), fill a date missing from a series
with 0 (`.fillna(0)`), and sum across countries per date (`.sum(axis=1)`). -/
def combineTimelines (ts : List (List (String × ℚ))) : List (String × ℚ) :=
  let kept := ts.filter (fun t => ¬ t.isEmpty)
  (unionKeys kept).map (fun k => (k, (kept.map (fun t => lookup0 t k)).sum))

/-- The Global aggregate series for one metric, built from every country's
timeline (lines 141-156). -/
def globalSeries (hist : List CountryHist) (metric : String) : List (String × ℚ) :=
  combineTimelines (hist.map (fun c => metricSeriesOf c metric))

theorem lookup0_map_of_mem (keys : List String) (f : String → ℚ) (k : String)
    (hk : k ∈ keys) : lookup0 (keys.map (fun k' => (k', f k'))) k = f k := by
  induction keys with
  | nil => simp at hk
  | cons h t ih =>
    by_cases hhk : h = k
    · subst hhk
      simp [lookup0, List.find?]
    · have hk' : k ∈ t := by
        rcases List.mem_cons.mp hk with h1 | h1
        · exact absurd h1.symm hhk
        · exact h1
      have hbeq : (h == k) = false := beq_false_of_ne hhk
      simpa [lookup0, List.find?, hbeq] using ih hk'

theorem unionKeys_filter_nonempty (ts : List (List (String × ℚ))) :
    unionKeys (ts.filter (fun t => ¬ t.isEmpty)) = unionKeys ts := by
  unfold unionKeys
  congr 1
  induction ts with
  | nil => rfl
  | cons t rest ih =>
    by_cases ht : t.isEmpty
    · have ht' : t = [] := List.isEmpty_iff.mp ht
      subst ht'
      rw [List.filter_cons_of_neg (by simp)]
      simpa [tlKeys] using ih
    · rw [List.filter_cons_of_pos (by simpa using ht)]
      simp only [List.map_cons, List.flatten_cons, ih]

theorem sum_lookup0_filter_nonempty (ts : List (List (String × ℚ))) (k : String) :
    ((ts.filter (fun t => ¬ t.isEmpty)).map (fun t => lookup0 t k)).sum =
      (ts.map (fun t => lookup0 t k)).sum := by
  induction ts with
  | nil => rfl
  | cons t rest ih =>
    by_cases ht : t.isEmpty
    · have ht' : t = [] := List.isEmpty_iff.mp ht
      subst ht'
      have h0 : lookup0 [] k = 0 := rfl
      rw [List.filter_cons_of_neg (by simp), List.map_cons, List.sum_cons, h0, zero_add, ih]
    · rw [List.filter_cons_of_pos (by simpa using ht)]
      simp only [List.map_cons, List.sum_cons, ih]

/-- C3: the Global aggregate assigns to every date in the union of the
countries' date keys the sum, over all countries, of that country's value
at the date with missing dates counted as 0 (zero-fill, not forward-fill);
in particular two countries with timelines `{"1/1/21": 10}` and
`{"1/1/21": 5, "1/2/21": 8}` combine to `{"1/1/21": 15, "1/2/21": 8}`. -/
theorem global_aggregation_zero_fill :
    (∀ (ts : List (List (String × ℚ))) (k : String), k ∈ unionKeys ts →
      lookup0 (combineTimelines ts) k = (ts.map (fun t => lookup0 t k)).sum) ∧
    globalSeries [⟨"A", [("cases", [("1/1/21", 10)])]⟩,
                  ⟨"B", [("cases", [("1/1/21", 5), ("1/2/21", 8)])]⟩] "cases" =
      [("1/1/21", 15), ("1/2/21", 8)] := by
  constructor
  · intro ts k hk
    unfold combineTimelines
    rw [lookup0_map_of_mem _ _ _ (by rw [unionKeys_filter_nonempty]; exact hk)]
    exact sum_lookup0_filter_nonempty ts k
  · simp +decide only [globalSeries, combineTimelines, metricSeriesOf, unionKeys, tlKeys,
      lookup0, List.find?, dedupFirst, dedupFirstAux, List.map_cons, List.map_nil,
      List.filter_cons, List.filter_nil, List.flatten, List.sum_cons, List.sum_nil]
    have hb : ("1/1/21" == "1/2/21") = false := by decide
    norm_num [List.find?, hb]

/-- C3 witness: the general alignment law applied at the two-country
example and the date `"1/2/21"`, where only the second country reports. -/
theorem global_aggregation_zero_fill_witness :
    "1/2/21" ∈ unionKeys [[("1/1/21", (10 : ℚ))], [("1/1/21", 5), ("1/2/21", 8)]] ∧
    lookup0 (combineTimelines [[("1/1/21", (10 : ℚ))], [("1/1/21", 5), ("1/2/21", 8)]]) "1/2/21" =
      (([[("1/1/21", (10 : ℚ))], [("1/1/21", 5), ("1/2/21", 8)]]).map
        (fun t => lookup0 t "1/2/21")).sum :=
  ⟨by decide,
   global_aggregation_zero_fill.1 [[("1/1/21", 10)], [("1/1/21", 5), ("1/2/21", 8)]]
     "1/2/21" (by decide)⟩

/-- A calendar date. -/
structure Date where
  year : ℕ
  month : ℕ
  day : ℕ
deriving DecidableEq

/-- Digits-only numeral: `some` of its value when the (nonempty) character
list is all digits, else `none`. -/
def parseNatDigits (cs : List Char) : Option ℕ :=
  if cs ≠ [] ∧ cs.all Char.isDigit then
    some (cs.foldl (fun a c => 10 * a + (c.toNat - '0'.toNat)) 0)
  else none

/-- Gregorian leap-year test. -/
def isLeap (y : ℕ) : Bool := (y % 4 == 0 && y % 100 != 0) || y % 400 == 0

/-- Number of days in month `m` of year `y`. -/
def daysInMonth (y m : ℕ) : ℕ :=
  if m = 2 then (if isLeap y then 29 else 28)
  else if m = 4 ∨ m = 6 ∨ m = 9 ∨ m = 11 then 30 else 31

/-- `pd.to_datetime(keys, format="%m/%d/%y")` on one key (lines 157 and
170): split on `/` into exactly month, day and two-digit year, each a
numeral of at most two digits; `%y` maps 00-68 to 20xx and 69-99 to 19xx;
reject out-of-range months and days.  Any mismatch is a format error that
carries the offending key. -/
def parseDateMDYY (s : String) : Except String Date :=
  match s.data.splitOn '/' with
  | [ms, ds, ys] =>
    match parseNatDigits ms, parseNatDigits ds, parseNatDigits ys with
    | some m, some d, some y2 =>
      if ms.length ≤ 2 ∧ ds.length ≤ 2 ∧ ys.length ≤ 2 then
        let y := if y2 ≤ 68 then 2000 + y2 else 1900 + y2
        if 1 ≤ m ∧ m ≤ 12 ∧ 1 ≤ d ∧ d ≤ daysInMonth y m then .ok ⟨y, m, d⟩
        else .error ("time data " ++ s ++ " does not match format %m/%d/%y")
      else .error ("time data " ++ s ++ " does not match format %m/%d/%y")
    | _, _, _ => .error ("time data " ++ s ++ " does not match format %m/%d/%y")
  | _ => .error ("time data " ++ s ++ " does not match format %m/%d/%y")

/-- `pd.to_datetime(ts.index, format="%m/%d/%y")`: parse every date key of
a series, failing the whole conversion on the first key that does not
match the format (no key is skipped). -/
def parseTimelineDates : List (String × ℚ) → Except String (List (Date × ℚ))
  | [] => .ok []
  | (k, v) :: rest => do
    let d ← parseDateMDYY k
    let tail ← parseTimelineDates rest
    .ok ((d, v) :: tail)

/-- C6: `"3/5/21"` parses to March 5, 2021; the ISO-format key
`"2021-03-05"` is rejected with a format error; and a timeline containing
any unparseable key makes the whole conversion fail (the error
propagates, no key is silently skipped or misparsed). -/
theorem date_parsing_format :
    parseDateMDYY "3/5/21" = .ok ⟨2021, 3, 5⟩ ∧
    (∃ e, parseDateMDYY "2021-03-05" = .error e) ∧
    ∀ (t : List (String × ℚ)) (k : String) (v : ℚ) (e : String),
      (k, v) ∈ t → parseDateMDYY k = .error e →
      ∃ e', parseTimelineDates t = .error e' := by
  refine ⟨by rfl, ⟨_, rfl⟩, ?_⟩
  intro t k v e
  induction t with
  | nil => intro hmem _; simp at hmem
  | cons hd rest ih =>
    intro hmem herr
    obtain ⟨k1, v1⟩ := hd
    rcases List.mem_cons.mp hmem with h1 | h1
    · rw [show k1 = k from (Prod.mk.injEq _ _ _ _ ▸ h1.symm).1]
      exact ⟨e, by simp [parseTimelineDates, herr, Bind.bind, Except.bind]⟩
    · obtain ⟨e', he'⟩ := ih h1 herr
      cases hhd : parseDateMDYY k1 with
      | error e2 => exact ⟨e2, by simp [parseTimelineDates, hhd, Bind.bind, Except.bind]⟩
      | ok d => exact ⟨e', by simp [parseTimelineDates, hhd, he', Bind.bind, Except.bind]⟩

/-- C6 witness: a timeline holding the well-formed key `"1/1/21"` and the
ISO key `"2021-03-05"`; the whole conversion fails. -/
theorem date_parsing_format_witness :
    ("2021-03-05", (3 : ℚ)) ∈ [("1/1/21", (10 : ℚ)), ("2021-03-05", (3 : ℚ))] ∧
    parseDateMDYY "2021-03-05" =
      .error "time data 2021-03-05 does not match format %m/%d/%y" ∧
    ∃ e', parseTimelineDates [("1/1/21", (10 : ℚ)), ("2021-03-05", (3 : ℚ))] = .error e' :=
  ⟨by simp, by rfl,
   date_parsing_format.2.2 [("1/1/21", 10), ("2021-03-05", 3)] "2021-03-05" 3
     "time data 2021-03-05 does not match format %m/%d/%y" (by simp) (by rfl)⟩

/-- Cumulative days before month `m` in year `y`. -/
def daysBeforeMonth (y m : ℕ) : ℕ :=
  ((List.range (m - 1)).map (fun j => daysInMonth y (j + 1))).sum

/-- Proleptic day number of a date: the position of the date on the
continuous daily axis (`pd.to_datetime` timestamps, up to a fixed
offset), so that consecutive calendar days get consecutive numbers. -/
def dayNumber (dt : Date) : ℕ :=
  365 * (dt.year - 1) + (dt.year - 1) / 4 - (dt.year - 1) / 100 + (dt.year - 1) / 400 +
    daysBeforeMonth dt.year dt.month + dt.day

/-- Lines 167-171 for one selected country: extract the metric
sub-mapping (`timeline.get(metric_option, {})`), parse every date key
(`pd.to_datetime(..., format="%m/%d/%y")`), and sort ascending by date
(`ts.sort_index()`), keys becoming day numbers. -/
def countrySeries (h : CountryHist) (metric : String) : Except String (List (ℕ × ℚ)) := do
  let parsed ← parseTimelineDates (metricSeriesOf h metric)
  .ok (List.insertionSort (fun a b => a.1 ≤ b.1) (parsed.map (fun p => (dayNumber p.1, p.2))))

/-- What the time-series section renders. -/
inductive TsOutcome where
  | noData : TsOutcome
  | chart : List (ℕ × ℚ) → TsOutcome

/-- Lines 176-178: `if ts.empty:` show the "No time series data available"
notice, else build `df_ts` and the charts. -/
def renderTimeSeries (ts : List (ℕ × ℚ)) : TsOutcome :=
  if ts.isEmpty then .noData else .chart ts

/-- C8: when the requested metric's sub-mapping is absent from the
timeline or is empty, normalization succeeds with the empty sequence (not
an error), and the renderer shows the "no data" state instead of charts. -/
theorem empty_metric_renders_no_data (h : CountryHist) (metric : String)
    (habs : h.timeline.find? (fun p => p.1 == metric) = none ∨
      ∃ p, h.timeline.find? (fun p => p.1 == metric) = some p ∧ p.2 = []) :
    countrySeries h metric = .ok [] ∧
    ∀ ts, countrySeries h metric = .ok ts → renderTimeSeries ts = .noData := by
  have hms : metricSeriesOf h metric = [] := by
    unfold metricSeriesOf
    rcases habs with h1 | ⟨p, h1, h2⟩
    · rw [h1]
    · rw [h1]
      exact h2
  have hok : countrySeries h metric = .ok [] := by
    unfold countrySeries
    rw [hms]
    rfl
  refine ⟨hok, ?_⟩
  intro ts hts
  rw [hok] at hts
  cases hts
  rfl

/-- C8 witness: a country reporting an empty `cases` map and queried for
`deaths` (absent metric). -/
theorem empty_metric_renders_no_data_witness :
    ((⟨"X", [("cases", [])]⟩ : CountryHist).timeline.find? (fun p => p.1 == "deaths") = none ∨
      ∃ p, (⟨"X", [("cases", [])]⟩ : CountryHist).timeline.find? (fun p => p.1 == "deaths") =
        some p ∧ p.2 = []) ∧
    countrySeries ⟨"X", [("cases", [])]⟩ "deaths" = .ok [] :=
  ⟨Or.inl (by rfl),
   (empty_metric_renders_no_data ⟨"X", [("cases", [])]⟩ "deaths" (Or.inl (by rfl))).1⟩

/-- The four sequences drawn by the decomposition panel. -/
structure DecompOutput where
  observed : List ℚ
  trend : List ℚ
  seasonal : List ℚ
  resid : List ℚ

/-- What the decomposition section renders: nothing (series too short), an
informational failure note, or the four-panel chart. -/
inductive DecompOutcome where
  | skipped : DecompOutcome
  | failed : String → DecompOutcome
  | ok : DecompOutput → DecompOutcome

/-- `df_ts['new']` keyed by day: the dates paired with the daily deltas of
the cumulative values (line 180). -/
def newSeries (ts : List (ℕ × ℚ)) : List (ℕ × ℚ) :=
  (ts.map Prod.fst).zip (dailyDelta (ts.map Prod.snd))

/-- Value of a day-keyed series at day `k`, `0` when absent. -/
def lookup0Day (t : List (ℕ × ℚ)) (k : ℕ) : ℚ :=
  match t.find? (fun p => p.1 == k) with
  | some p => p.2
  | none => 0

/-- `.asfreq('D').fillna(0)` (line 204): reindex a day-keyed series to the
continuous daily range from its first to its last key, a day missing from
the series becoming 0. -/
def asfreqDaily (t : List (ℕ × ℚ)) : List (ℕ × ℚ) :=
  match t.head?, t.getLast? with
  | some (lo, _), some (hi, _) =>
    (List.range (hi + 1 - lo)).map (fun j => (lo + j, lookup0Day t (lo + j)))
  | _, _ => []

/-- The series handed to `seasonal_decompose` (line 204):
`df_ts.set_index('date')['new'].astype(float).asfreq('D').fillna(0)`. -/
def mkDecompInput (ts : List (ℕ × ℚ)) : List ℚ :=
  (asfreqDaily (newSeries ts)).map Prod.snd

/-- Mean over the centered window `xs[i-p/2 .. i+p/2]` clamped to the
series. -/
def centeredTrend (p : ℕ) (xs : List ℚ) : List ℚ :=
  (List.range xs.length).map fun i =>
    let lo := i - p / 2
    let hi := min (i + p / 2) (xs.length - 1)
    listMean ((xs.drop lo).take (hi + 1 - lo))

/-- Mean of the detrended values whose index is `j` modulo `p`. -/
def seasonalMeans (p : ℕ) (det : List ℚ) : List ℚ :=
  (List.range p).map fun j =>
    listMean (((List.range det.length).filter (fun i => i % p == j)).map (fun i => det.getD i 0))

/-- Shallow model of `statsmodels`' external routine
`seasonal_decompose(series, model='additive', period=p,
extrapolate_trend='freq')` (line 205): it raises when the series is
shorter than two full periods, and otherwise returns observed = the
input, a centered-moving-average trend (extrapolated at the boundary —
here by clamping the window), the demeaned per-phase seasonal component
tiled over the series, and the residual.  The claims under verification
depend on the routine's interface — totality for `len ≥ 2p`, failure
below, and all four components of the input's length — which this model
reproduces; fine numeric behaviour at the boundary is simplified. -/
def seasonalDecomposeModel (p : ℕ) (xs : List ℚ) : Except String DecompOutput :=
  if xs.length < 2 * p then
    .error "x must have 2 complete cycles requires 14 observations"
  else
    let trend := centeredTrend p xs
    let det := List.zipWith (fun a b => a - b) xs trend
    let means := seasonalMeans p det
    let avg := listMean means
    let seasonal := (List.range xs.length).map (fun i => means.getD (i % p) 0 - avg)
    let resid := List.zipWith (fun a b => a - b) det seasonal
    .ok ⟨xs, trend, seasonal, resid⟩

/-- Lines 202-216: run decomposition only when `len(df_ts) >= 30`; any
exception from the routine is caught and rendered as an informational
"Decomposition not available: " note carrying the reason.  The routine is
a parameter so the failure policy holds for every behaviour of the
external library. -/
def decompSection (f : List ℚ → Except String DecompOutput) (ts : List (ℕ × ℚ)) :
    DecompOutcome :=
  if 30 ≤ ts.length then
    match f (mkDecompInput ts) with
    | .ok r => .ok r
    | .error e => .failed ("Decomposition not available: " ++ e)
  else .skipped

/-- C4: the decomposition section runs iff the daily-delta series (one
delta per row of `df_ts`) has at least 30 points; at 29 points it is
skipped with no exception; and any error the routine raises is caught and
reported as "Decomposition not available: " plus the underlying reason,
never escaping the section. -/
theorem decomposition_gate_and_failure_policy
    (f : List ℚ → Except String DecompOutput) (ts : List (ℕ × ℚ)) :
    (decompSection f ts ≠ .skipped ↔ 30 ≤ (dailyDelta (ts.map Prod.snd)).length) ∧
    ((dailyDelta (ts.map Prod.snd)).length = 29 → decompSection f ts = .skipped) ∧
    (∀ e, 30 ≤ ts.length → f (mkDecompInput ts) = .error e →
      decompSection f ts = .failed ("Decomposition not available: " ++ e)) := by
  have hlen : (dailyDelta (ts.map Prod.snd)).length = ts.length := by
    rw [dailyDelta_length, List.length_map]
  rw [hlen]
  unfold decompSection
  by_cases h : 30 ≤ ts.length
  · rw [if_pos h]
    refine ⟨⟨fun _ => h, fun _ => ?_⟩, fun h29 => absurd h (by omega), fun e _ herr => ?_⟩
    · cases hf : f (mkDecompInput ts) <;> simp [hf]
    · rw [herr]
  · rw [if_neg h]
    exact ⟨⟨fun hne => absurd rfl hne, fun h30 => absurd h30 h⟩,
      fun _ => rfl, fun e h30 _ => absurd h30 h⟩

/-- A 30-row `df_ts` whose dates are 30 consecutive days. -/
def consTs : List (ℕ × ℚ) := (List.range 30).map (fun i => (i, 0))

/-- C4 witness: a failing routine on a 30-day series is caught and
reported with its reason. -/
theorem decomposition_gate_and_failure_policy_witness :
    30 ≤ consTs.length ∧
    (fun _ : List ℚ => (Except.error "bad" : Except String DecompOutput)) (mkDecompInput consTs) =
      .error "bad" ∧
    decompSection (fun _ => .error "bad") consTs = .failed ("Decomposition not available: " ++ "bad") :=
  ⟨by simp [consTs], rfl,
   (decomposition_gate_and_failure_policy (fun _ => .error "bad") consTs).2.2 "bad"
     (by simp [consTs]) rfl⟩

theorem decompSection_ok (f : List ℚ → Except String DecompOutput) (ts : List (ℕ × ℚ))
    (r : DecompOutput) (h : decompSection f ts = .ok r) :
    30 ≤ ts.length ∧ f (mkDecompInput ts) = .ok r := by
  unfold decompSection at h
  by_cases h30 : 30 ≤ ts.length
  · rw [if_pos h30] at h
    cases hf : f (mkDecompInput ts) with
    | ok r' =>
      rw [hf] at h
      injection h with h2
      subst h2
      exact ⟨h30, rfl⟩
    | error e =>
      rw [hf] at h
      cases h
  · rw [if_neg h30] at h
    cases h

theorem seasonalDecomposeModel_ok_shape (p : ℕ) (xs : List ℚ) (r : DecompOutput)
    (h : seasonalDecomposeModel p xs = .ok r) :
    r.observed = xs ∧ r.trend.length = xs.length ∧ r.seasonal.length = xs.length ∧
      r.resid.length = xs.length := by
  simp only [seasonalDecomposeModel] at h
  by_cases hlen : xs.length < 2 * p
  · rw [if_pos hlen] at h
    cases h
  · rw [if_neg hlen] at h
    injection h with h2
    subst h2
    refine ⟨rfl, by simp [centeredTrend], by simp, ?_⟩
    simp [centeredTrend]

theorem newSeries_keys (ts : List (ℕ × ℚ)) :
    (newSeries ts).map Prod.fst = ts.map Prod.fst := by
  unfold newSeries
  rw [List.map_fst_zip]
  rw [dailyDelta_length, List.length_map, List.length_map]

theorem newSeries_length (ts : List (ℕ × ℚ)) : (newSeries ts).length = ts.length := by
  unfold newSeries
  rw [List.length_zip, dailyDelta_length, List.length_map, List.length_map, min_self]

theorem chain_consecutive_getLast? (x : ℕ) (rest : List ℕ) :
    (x :: rest).Chain' (fun a b => b = a + 1) →
      (x :: rest).getLast? = some (x + rest.length) := by
  induction rest generalizing x with
  | nil => intro _; rfl
  | cons y t ih =>
    intro hch
    have h1 : y = x + 1 := (List.chain'_cons.mp hch).1
    subst h1
    have h2 := ih (x + 1) (List.chain'_cons.mp hch).2
    rw [List.getLast?_cons_cons, h2]
    simp only [List.length_cons]
    congr 1
    omega

theorem asfreqDaily_length_chain (t : List (ℕ × ℚ)) (hne : t ≠ [])
    (hch : (t.map Prod.fst).Chain' (fun a b => b = a + 1)) :
    (asfreqDaily t).length = t.length := by
  obtain ⟨u, urest, rfl⟩ : ∃ u urest, t = u :: urest := by
    cases t with
    | nil => exact absurd rfl hne
    | cons u urest => exact ⟨u, urest, rfl⟩
  obtain ⟨u1, u2⟩ := u
  have hl1 : (((u1, u2) :: urest).map Prod.fst).getLast? =
      some (u1 + (urest.map Prod.fst).length) :=
    chain_consecutive_getLast? u1 _ (by simpa using hch)
  rw [List.getLast?_map] at hl1
  obtain ⟨q, hq, hq1⟩ : ∃ q, ((u1, u2) :: urest).getLast? = some q ∧
      q.1 = u1 + urest.length := by
    cases hgl : ((u1, u2) :: urest).getLast? with
    | none => rw [hgl] at hl1; cases hl1
    | some q =>
      rw [hgl] at hl1
      refine ⟨q, rfl, ?_⟩
      simpa using hl1
  obtain ⟨q1, q2⟩ := q
  unfold asfreqDaily
  rw [List.head?_cons, hq]
  simp only [List.length_map, List.length_range, List.length_cons]
  simp only [List.length_map] at hq1
  omega

/-- C5 (amended): whenever the decomposition section produces a result,
the four components are mutually aligned, their common length being that
of the daily-reindexed (`asfreq('D')`, zero-filled) delta series; when the
input dates are consecutive days this equals the daily-delta series
length, but with a date gap it exceeds it. -/
theorem decomposition_component_lengths (ts : List (ℕ × ℚ)) (r : DecompOutput)
    (h : decompSection (seasonalDecomposeModel 7) ts = .ok r) :
    (r.trend.length = r.observed.length ∧ r.seasonal.length = r.observed.length ∧
      r.resid.length = r.observed.length) ∧
    r.observed.length = (mkDecompInput ts).length ∧
    ((ts.map Prod.fst).Chain' (fun a b => b = a + 1) → r.observed.length = ts.length) := by
  obtain ⟨h30, hok⟩ := decompSection_ok _ _ _ h
  obtain ⟨hobs, htr, hse, hre⟩ := seasonalDecomposeModel_ok_shape _ _ _ hok
  have hobslen : r.observed.length = (mkDecompInput ts).length := by rw [hobs]
  refine ⟨⟨by rw [htr, hobslen], by rw [hse, hobslen], by rw [hre, hobslen]⟩, hobslen, ?_⟩
  intro hchain
  rw [hobslen]
  unfold mkDecompInput
  rw [List.length_map]
  rw [asfreqDaily_length_chain (newSeries ts)
    (by
      have := newSeries_length ts
      intro hnil
      rw [hnil] at this
      simp at this
      omega)
    (by rw [newSeries_keys]; exact hchain)]
  exact newSeries_length ts

/-- A 30-row `df_ts` whose 30 dates skip one day (day 29 missing). -/
def gapTs : List (ℕ × ℚ) := (List.range 29).map (fun i => (i, 0)) ++ [(30, 0)]

/-- The length of the observed component the section draws, when it draws
one. -/
def observedLength : DecompOutcome → Option ℕ
  | .ok r => some r.observed.length
  | _ => none

/-- C5 counterexample: on a 30-point daily-delta series whose dates have
one gap, the decomposition is produced, but its components have 31
points — not 30, the input daily-delta series length. -/
theorem decomposition_length_counterexample :
    gapTs.length = 30 ∧
    observedLength (decompSection (seasonalDecomposeModel 7) gapTs) = some 31 := by
  constructor
  · rfl
  · rfl

/-- C5 witness: the amended statement applied to 30 consecutive days,
where the component length does equal the input length. -/
theorem decomposition_component_lengths_witness :
    ∃ r, decompSection (seasonalDecomposeModel 7) consTs = .ok r ∧
      (consTs.map Prod.fst).Chain' (fun a b => b = a + 1) ∧
      r.observed.length = consTs.length := by
  have hchain : (consTs.map Prod.fst).Chain' (fun a b => b = a + 1) := by
    have hmap : consTs.map Prod.fst = List.range 30 := by decide
    rw [hmap, show (30 : ℕ) = 29 + 1 from rfl, List.chain'_range_succ]
    intro m _
    rfl
  cases hout : decompSection (seasonalDecomposeModel 7) consTs with
  | ok r =>
    exact ⟨r, rfl, hchain, (decomposition_component_lengths consTs r hout).2.2 hchain⟩
  | skipped =>
    have hcomp : observedLength (decompSection (seasonalDecomposeModel 7) consTs) = some 30 := rfl
    rw [hout] at hcomp
    cases hcomp
  | failed e =>
    have hcomp : observedLength (decompSection (seasonalDecomposeModel 7) consTs) = some 30 := rfl
    rw [hout] at hcomp
    cases hcomp

/-- One row of the country summary table (lines 60-77).  `tests` is
`none` when the field is absent or NaN for that row. -/
structure SummaryRow where
  country : String
  cases : ℤ
  deaths : ℤ
  recovered : ℤ
  tests : Option ℚ

/-- Python's `int()` on a numeric value: truncation toward zero. -/
def ratTrunc (q : ℚ) : ℤ := q.num.tdiv q.den

/-- Group a reversed digit list into blocks of three. -/
def chunk3 : List Char → List (List Char)
  | a :: b :: c :: d :: rest => [a, b, c] :: chunk3 (d :: rest)
  | l => [l]

/-- Python's thousands-separator format `f"{n:,}"` for naturals. -/
def formatCommaNat (n : ℕ) : String :=
  String.mk ((((chunk3 (Nat.toDigits 10 n).reverse).intersperse [',']).flatten).reverse)

/-- Python's `f"{n:,}"` on an integer. -/
def formatComma (n : ℤ) : String :=
  if n < 0 then "-" ++ formatCommaNat n.natAbs else formatCommaNat n.natAbs

/-- Lines 60-71: the four KPI numbers for the current selection.  For
"Global", sum each column over all rows, with the tests total summing
only the non-missing entries (`df['tests'].dropna().sum()`); otherwise
take the first row whose country matches (`df[df['country'] ==
country].iloc[0]`), `none` when no row matches, and a missing/NaN tests
entry stays `none`. -/
def kpiValues (df : List SummaryRow) (country : String) :
    Option (ℤ × ℤ × ℤ × Option ℤ) :=
  if country = "Global" then
    some ((df.map (fun r => r.cases)).sum, (df.map (fun r => r.deaths)).sum,
      (df.map (fun r => r.recovered)).sum,
      some (ratTrunc ((df.filterMap (fun r => r.tests)).sum)))
  else
    (df.find? (fun r => r.country == country)).map fun row =>
      (row.cases, row.deaths, row.recovered, row.tests.map ratTrunc)

/-- Lines 73-77: the formatted KPI strings; a missing tests total renders
"N/A". -/
def kpiDisplay (v : ℤ × ℤ × ℤ × Option ℤ) : String × String × String × String :=
  (formatComma v.1, formatComma v.2.1, formatComma v.2.2.1,
    match v.2.2.2 with
    | some t => formatComma t
    | none => "N/A")

/-- C9: with the one-row summary table `{country "X", cases 100, deaths 5,
recovered 80, tests 200}` and country "X" selected, the four KPIs display
"100", "5", "80" and "200"; larger values get thousands separators
(`1234` renders as "1,234"). -/
theorem kpi_display_concrete :
    kpiValues [⟨"X", 100, 5, 80, some 200⟩] "X" = some (100, 5, 80, some 200) ∧
    kpiDisplay (100, 5, 80, some 200) = ("100", "5", "80", "200") ∧
    formatComma 1234 = "1,234" := by
  refine ⟨?_, by decide, by decide⟩
  simp [kpiValues, List.find?, ratTrunc]

/-- C10: a selected country whose tests entry is absent or NaN shows
"N/A" for Total Tests while the other three KPIs render its numbers; and
the Global tests total sums exactly the rows whose tests entry is
present. -/
theorem missing_tests_renders_na (df : List SummaryRow) (country : String)
    (row : SummaryRow) (hng : country ≠ "Global")
    (hfind : df.find? (fun r => r.country == country) = some row)
    (hna : row.tests = none) :
    (∃ v, kpiValues df country = some v ∧
      kpiDisplay v =
        (formatComma row.cases, formatComma row.deaths, formatComma row.recovered, "N/A")) ∧
    kpiValues df "Global" =
      some ((df.map (fun r => r.cases)).sum, (df.map (fun r => r.deaths)).sum,
        (df.map (fun r => r.recovered)).sum,
        some (ratTrunc ((df.filterMap (fun r => r.tests)).sum))) := by
  refine ⟨?_, by rw [kpiValues, if_pos rfl]⟩
  refine ⟨(row.cases, row.deaths, row.recovered, none), ?_, rfl⟩
  rw [kpiValues, if_neg hng, hfind]
  simp [hna]

/-- C10 witness: a two-row table where "X" lacks a tests value. -/
theorem missing_tests_renders_na_witness :
    ("X" : String) ≠ "Global" ∧
    ([⟨"X", 100, 5, 80, none⟩, ⟨"Y", 1, 2, 3, some 7⟩] :
      List SummaryRow).find? (fun r => r.country == "X") = some ⟨"X", 100, 5, 80, none⟩ ∧
    (∃ v, kpiValues [⟨"X", 100, 5, 80, none⟩, ⟨"Y", 1, 2, 3, some 7⟩] "X" = some v ∧
      kpiDisplay v = (formatComma 100, formatComma 5, formatComma 80, "N/A")) :=
  ⟨by decide, by rfl,
   (missing_tests_renders_na [⟨"X", 100, 5, 80, none⟩, ⟨"Y", 1, 2, 3, some 7⟩] "X"
     ⟨"X", 100, 5, 80, none⟩ (by decide) (by rfl) rfl).1⟩

/-- The summary table as rendered for export: the column names and one
list of cell texts per row (texts as character lists). -/
structure CsvTable where
  header : List (List Char)
  rows : List (List (List Char))

/-- One CSV line: the cells joined with commas. -/
def csvLine (cells : List (List Char)) : List Char := List.intercalate [','] cells

/-- `df.to_csv(index=False)` (line 221): the header line, then one line
per row, every line newline-terminated. -/
def toCsv (t : CsvTable) : List Char :=
  List.intercalate ['\n'] ((t.header :: t.rows).map csvLine) ++ ['\n']

/-- Parsing the exported blob back into a table (the shape `pd.read_csv`
recovers): split into lines, skip blank lines, split each line on
commas. -/
def parseCsv (s : List Char) : List (List (List Char)) :=
  ((s.splitOn '\n').filter (fun l => ¬ l.isEmpty)).map (fun l => l.splitOn ',')

theorem intercalate_append_single (sep : List Char) :
    ∀ (ls : List (List Char)), ls ≠ [] → ∀ (y : List Char),
      List.intercalate sep (ls ++ [y]) = List.intercalate sep ls ++ sep ++ y
  | [], h, _ => absurd rfl h
  | [a], _, y => by
    simp [List.intercalate, List.intersperse_cons_cons]
  | a :: b :: tl, _, y => by
    have ih := intercalate_append_single sep (b :: tl) (by simp) y
    have h1 : List.intercalate sep ((a :: b :: tl) ++ [y]) =
        a ++ sep ++ List.intercalate sep ((b :: tl) ++ [y]) := by
      simp only [List.cons_append]
      simp [List.intercalate, List.intersperse_cons_cons, List.flatten_cons]
    have h2 : List.intercalate sep (a :: b :: tl) =
        a ++ sep ++ List.intercalate sep (b :: tl) := by
      simp [List.intercalate, List.intersperse_cons_cons, List.flatten_cons]
    rw [h1, ih, h2]
    simp [List.append_assoc]

theorem mem_csvLine (c : Char) :
    ∀ (cells : List (List Char)), c ∈ csvLine cells → c = ',' ∨ ∃ cell ∈ cells, c ∈ cell
  | [], h => by simp [csvLine, List.intercalate] at h
  | [a], h => Or.inr ⟨a, by simp, by simpa [csvLine, List.intercalate] using h⟩
  | a :: b :: tl, h => by
    have h1 : csvLine (a :: b :: tl) = a ++ [','] ++ csvLine (b :: tl) := by
      simp [csvLine, List.intercalate, List.intersperse_cons_cons, List.flatten_cons]
    rw [h1] at h
    rcases List.mem_append.mp h with h2 | h2
    · rcases List.mem_append.mp h2 with h3 | h3
      · exact Or.inr ⟨a, by simp, h3⟩
      · exact Or.inl (by simpa using h3)
    · rcases mem_csvLine c (b :: tl) h2 with h3 | ⟨cell, hc1, hc2⟩
      · exact Or.inl h3
      · exact Or.inr ⟨cell, List.mem_cons_of_mem a hc1, hc2⟩

/-- C7: provided no cell or column name needs quoting (none contains a
comma or a newline) and every row renders a nonempty line, parsing the
exported CSV returns exactly the header followed by the data rows — the
same column set and the same number of rows as the summary table it was
generated from. -/
theorem csv_round_trip (t : CsvTable)
    (hcell : ∀ row ∈ t.header :: t.rows, ∀ cell ∈ row, (',') ∉ cell ∧ ('\n') ∉ cell)
    (hline : ∀ row ∈ t.header :: t.rows, csvLine row ≠ []) :
    parseCsv (toCsv t) = t.header :: t.rows := by
  set L := (t.header :: t.rows).map csvLine with hL
  have hrowsplit : ∀ row ∈ t.header :: t.rows, (csvLine row).splitOn ',' = row := by
    intro row hrow
    have hr : row ≠ [] := by
      intro hr0
      exact hline row hrow (by rw [hr0]; rfl)
    have := List.splitOn_intercalate row ',' (fun cell hc => (hcell row hrow cell hc).1) hr
    simpa [csvLine] using this
  have hnl : ∀ l ∈ L ++ [([] : List Char)], ('\n') ∉ l := by
    intro l hl
    rcases List.mem_append.mp hl with h1 | h1
    · rw [hL] at h1
      obtain ⟨row, hrow, rfl⟩ := List.mem_map.mp h1
      intro hmem
      rcases mem_csvLine _ _ hmem with h2 | ⟨cell, hc1, hc2⟩
      · exact absurd h2 (by decide)
      · exact (hcell row hrow cell hc1).2 hc2
    · simp only [List.mem_singleton] at h1
      subst h1
      simp
  have htc : toCsv t = List.intercalate ['\n'] (L ++ [([] : List Char)]) := by
    rw [toCsv, intercalate_append_single ['\n'] L (by rw [hL]; simp) []]
    simp only [List.append_nil]
  have hsplit : (toCsv t).splitOn '\n' = L ++ [([] : List Char)] := by
    rw [htc]
    exact List.splitOn_intercalate (L ++ [([] : List Char)]) '\n' hnl (by simp)
  unfold parseCsv
  rw [hsplit, List.filter_append]
  have hfL : L.filter (fun l => ¬ l.isEmpty) = L := by
    apply List.filter_eq_self.mpr
    intro l hl
    rw [hL] at hl
    obtain ⟨row, hrow, rfl⟩ := List.mem_map.mp hl
    simpa using hline row hrow
  have hnilf : ([([] : List Char)]).filter (fun l => ¬ l.isEmpty) = [] := by simp
  rw [hfL, hnilf, List.append_nil, hL, List.map_map]
  have hmapid : (t.header :: t.rows).map ((fun l => l.splitOn ',') ∘ csvLine) =
      (t.header :: t.rows).map id :=
    List.map_congr_left (fun row hrow => hrowsplit row hrow)
  rw [hmapid, List.map_id]

/-- C7 witness: a two-column, one-row summary table round-trips. -/
theorem csv_round_trip_witness :
    (∀ row ∈ (⟨["country".data, "cases".data], [["X".data, "100".data]]⟩ : CsvTable).header ::
        (⟨["country".data, "cases".data], [["X".data, "100".data]]⟩ : CsvTable).rows,
      ∀ cell ∈ row, (',') ∉ cell ∧ ('\n') ∉ cell) ∧
    parseCsv (toCsv ⟨["country".data, "cases".data], [["X".data, "100".data]]⟩) =
      ["country".data, "cases".data] :: [["X".data, "100".data]] :=
  ⟨by decide,
   csv_round_trip ⟨["country".data, "cases".data], [["X".data, "100".data]]⟩
     (by decide) (by decide)⟩

end Covid
